import Mathlib

/-!
Shallow embedding of the core of `streamlit_app_vP.py`: the date-question
assigner (`load_and_assign_questions`, `is_leap_year`, `load_question_mapping`,
the `question_mapping.get` accessor) and the SQLite message store
(`send_message`, `get_messages`, `delete_message`, `edit_message`), together
with theorems about them.

Modelling conventions:
- Python `datetime.date` values are modelled by the `Date` structure
  (year, month, day); the `"%Y-%m-%d"` key strings of the JSON mapping are
  injective images of these triples, so the `Date` triple stands for the key.
- The SQLite table is a list of rows plus the AUTOINCREMENT counter.
- `random.shuffle` and the Excel pool loading are environment effects: the
  embedded generator receives the already-loaded, already-shuffled question
  list as its argument.
- Python exceptions that can escape a function are modelled with `Except`;
  the mapping file on disk is an explicit `FileState` value threaded through.
- Streamlit calls (`st.success` / `st.error`) are the observable outcome of a
  store operation and are modelled by the `StoreResult` type.
-/

namespace ChatApp

/-- Calendar date triple, standing for the `"%Y-%m-%d"` strings used as dict
keys and for Python `datetime.date` values (the string form is injective in
the triple). -/
structure Date where
  year : Nat
  month : Nat
  day : Nat
deriving DecidableEq, Repr

/-- `is_leap_year(year)` from the source:
`year % 4 == 0 and (year % 100 != 0 or year % 400 == 0)`. -/
def is_leap_year (year : Nat) : Bool :=
  year % 4 == 0 && (year % 100 != 0 || year % 400 == 0)

/-- `days_in_year = 366 if is_leap_year(...) else 365` from
`load_and_assign_questions`. -/
def days_in_year (year : Nat) : Nat :=
  if is_leap_year year then 366 else 365

/-- Month lengths of the (proleptic Gregorian) calendar used by Python
`datetime` arithmetic. -/
def monthLengths (leap : Bool) : List Nat :=
  [31, if leap then 29 else 28, 31, 30, 31, 30, 31, 31, 30, 31, 30, 31]

/-- Walk the month-length table: convert a 0-based offset from January 1 into
a (month, day) pair, months numbered from `m`. -/
def monthDayAux : List Nat → Nat → Nat → Nat × Nat
  | [], m, n => (m, n + 1)
  | len :: rest, m, n =>
      if n < len then (m, n + 1) else monthDayAux rest (m + 1) (n - len)

/-- The date `date(year, 1, 1) + pd.to_timedelta(n, unit="D")` from the
generator loop: January 1 of `year` plus `n` days. -/
def dateOfOffset (year n : Nat) : Date :=
  let md := monthDayAux (monthLengths (is_leap_year year)) 1 n
  ⟨year, md.1, md.2⟩

/-- `single_date.timetuple().tm_yday`: the 1-based day-of-year index of a
date. -/
def tm_yday (d : Date) : Nat :=
  ((monthLengths (is_leap_year d.year)).take (d.month - 1)).sum + d.day

/-- Errors that mapping generation can signal. `zeroDivisionError` and
`indexError` model the Python exceptions that list indexing can raise
(`% 0` raises `ZeroDivisionError`); `emptyPoolError` is the error named by
the specification document — the source has no such check, the constructor
exists only so that statements about it can be written down. -/
inductive GenError
  | zeroDivisionError
  | indexError
  | emptyPoolError
deriving DecidableEq, Repr

/-- Python integer `a % b`, which raises `ZeroDivisionError` when `b == 0`
(for naturals, Python `%` agrees with `Nat.mod` when `b` is positive). -/
def pyMod (a b : Nat) : Except GenError Nat :=
  if b == 0 then .error .zeroDivisionError else .ok (a % b)

/-- Python dict assignment `mapping[k] = v` on a dict represented as an
insertion-ordered association list: overwrite the existing entry for `k`,
else append. -/
def dictInsert (m : List (Date × String)) (k : Date) (v : String) :
    List (Date × String) :=
  if m.any (fun p => decide (p.1 = k)) then
    m.map (fun p => if p.1 = k then (k, v) else p)
  else m ++ [(k, v)]

/-- Python `dict.get(k)` (no default): the value stored at `k`, if any. -/
def dict_get (m : List (Date × String)) (k : Date) : Option String :=
  match m.find? (fun p => decide (p.1 = k)) with
  | some p => some p.2
  | none => none

/-- One iteration of the generator loop:
`question = all_questions[(single_date.timetuple().tm_yday - 1) % len(all_questions)]`,
which raises `ZeroDivisionError` when the pool is empty. -/
def assignDay (year : Nat) (all_questions : List String) (n : Nat) :
    Except GenError (Date × String) :=
  let single_date := dateOfOffset year n
  match pyMod (tm_yday single_date - 1) all_questions.length with
  | .error e => .error e
  | .ok i =>
      match all_questions[i]? with
      | some question => .ok (single_date, question)
      | none => .error .indexError

/-- Run the loop body over the day offsets; the first raised exception
aborts the whole loop, as in Python. -/
def mapMExcept (f : Nat → Except GenError (Date × String)) :
    List Nat → Except GenError (List (Date × String))
  | [] => .ok []
  | n :: rest =>
      match f n with
      | .error e => .error e
      | .ok p =>
          match mapMExcept f rest with
          | .error e => .error e
          | .ok ps => .ok (p :: ps)

/-- The `mapping = {}; for single_date in ...` loop of
`load_and_assign_questions`: build the date → question dict for every day of
the year. -/
def genMapping (year : Nat) (all_questions : List String) :
    Except GenError (List (Date × String)) :=
  match mapMExcept (assignDay year all_questions) (List.range (days_in_year year)) with
  | .error e => .error e
  | .ok entries => .ok (entries.foldl (fun m p => dictInsert m p.1 p.2) [])

/-- Contents of `data/date_questions_vP.json` when the file exists:
either valid JSON holding a mapping, or bytes on which `json.load` raises. -/
inductive FileContent
  | parseable (m : List (Date × String))
  | corrupt
deriving DecidableEq

/-- The mapping file on disk. -/
inductive FileState
  | absent
  | present (c : FileContent)
deriving DecidableEq

/-- `load_and_assign_questions()` minus the Excel read and the shuffle (both
taken as the `all_questions` input): generate the mapping for `year` and
persist it with `json.dump`; an exception in the loop propagates before the
file write is reached. -/
def load_and_assign_questions (year : Nat) (all_questions : List String)
    (fs : FileState) :
    Except GenError (List (Date × String)) × FileState :=
  match genMapping year all_questions with
  | .ok mapping => (.ok mapping, .present (.parseable mapping))
  | .error e => (.error e, fs)

/-- `load_question_mapping()`: if the mapping file is absent, generate and
persist one; if it exists and parses, return it unchanged; if `json.load`
raises, report the error and return the empty dict, touching nothing. -/
def load_question_mapping (all_questions : List String) (year : Nat)
    (fs : FileState) :
    Except GenError (List (Date × String)) × FileState :=
  match fs with
  | .absent => load_and_assign_questions year all_questions fs
  | .present (.parseable m) => (.ok m, fs)
  | .present .corrupt => (.ok [], fs)

/-- `question_mapping.get(selected_date_str, "No question available for this date.")`
from `main`. -/
def question_for (question_mapping : List (Date × String)) (d : Date) : String :=
  (dict_get question_mapping d).getD "No question available for this date."

/-- A stored timestamp: calendar date plus seconds within the day
(`00:00:00` is second 0). `DATE(timestamp)` is the `date` field. -/
structure Timestamp where
  date : Date
  sec : Nat
deriving DecidableEq, Repr

/-- One row of the `messages` table. -/
structure Message where
  id : Nat
  sender : String
  message : String
  timestamp : Timestamp
deriving DecidableEq, Repr

/-- The `messages` table plus its AUTOINCREMENT counter (SQLite
`INTEGER PRIMARY KEY AUTOINCREMENT` hands out strictly increasing ids and
never reuses one). -/
structure MessageStore where
  table : List Message
  nextId : Nat
deriving DecidableEq, Repr

/-- Observable outcome of a store operation: the `st.success`/`st.error`
message emitted. -/
inductive StoreResult
  | success (msg : String)
  | rejected (msg : String)
deriving DecidableEq, Repr

/-- `send_message(sender, message, chat_date_str=None)`: with an explicit
date, the stored timestamp is `f"{chat_date_str} 00:00:00"`; otherwise the
column default `CURRENT_TIMESTAMP` (the insertion instant `now`) applies.
No validation of `message` is performed. -/
def send_message (sender message : String) (chat_date : Option Date)
    (now : Timestamp) (s : MessageStore) : MessageStore :=
  let timestamp_value : Timestamp :=
    match chat_date with
    | some d => ⟨d, 0⟩
    | none => now
  { table := s.table ++ [⟨s.nextId, sender, message, timestamp_value⟩],
    nextId := s.nextId + 1 }

/-- `get_messages(selected_date=None)`:
`SELECT id, sender, message, timestamp FROM messages [WHERE DATE(timestamp) = ?] ORDER BY id ASC`. -/
def get_messages (selected_date : Option Date) (s : MessageStore) :
    List Message :=
  match selected_date with
  | some d =>
      List.insertionSort (fun a b => a.id ≤ b.id)
        (s.table.filter (fun m => decide (m.timestamp.date = d)))
  | none => List.insertionSort (fun a b => a.id ≤ b.id) s.table

/-- `SELECT sender FROM messages WHERE id = ?` followed by `fetchone()`. -/
def lookupSender (table : List Message) (message_id : Nat) : Option String :=
  match table.find? (fun m => decide (m.id = message_id)) with
  | some m => some m.sender
  | none => none

/-- `delete_message(message_id, username)`: look up the sender of the row;
only when a row exists and its sender is `username` is it deleted —
otherwise (owner mismatch or no such row alike) the single error message is
shown and nothing changes. -/
def delete_message (message_id : Nat) (username : String) (s : MessageStore) :
    StoreResult × MessageStore :=
  match lookupSender s.table message_id with
  | some sender =>
      if sender = username then
        (.success "Message deleted successfully!",
         { s with table := s.table.filter (fun m => decide (¬ m.id = message_id)) })
      else
        (.rejected "You can only delete your own messages.", s)
  | none => (.rejected "You can only delete your own messages.", s)

/-- `edit_message(message_id, username, new_message)`: look up the sender of
the row; only when a row exists and its sender is `username` is
`UPDATE messages SET message = ? WHERE id = ?` run — otherwise (owner
mismatch or no such row alike) the single error message is shown and nothing
changes. -/
def edit_message (message_id : Nat) (username new_message : String)
    (s : MessageStore) : StoreResult × MessageStore :=
  match lookupSender s.table message_id with
  | some sender =>
      if sender = username then
        (.success "Message updated successfully!",
         { s with table := s.table.map (fun m =>
             if m.id = message_id then { m with message := new_message } else m) })
      else
        (.rejected "You can only edit your own messages.", s)
  | none => (.rejected "You can only edit your own messages.", s)

/-- Python `str.strip()`: drop leading and trailing whitespace. -/
def pyStrip (s : String) : String :=
  ⟨((s.data.dropWhile Char.isWhitespace).reverse.dropWhile Char.isWhitespace).reverse⟩

/-- The send form handler in `main`: `if submit and msg.strip() != ""`, send
with the selected date as explicit timestamp when it is not today, else with
the default timestamp; a blank (after strip) message is never sent. -/
def handle_send (username msg : String) (selected_date today : Date)
    (now : Timestamp) (s : MessageStore) : MessageStore :=
  if pyStrip msg ≠ "" then
    if selected_date ≠ today then
      send_message username (pyStrip msg) (some selected_date) now s
    else
      send_message username (pyStrip msg) none now s
  else s

/-! ### Helper lemmas on the date model -/

/-- The day-of-year computation specialised to the leap flag, so both cases
can be settled by finite checking. -/
def ordOfOffset (leap : Bool) (n : Nat) : Nat :=
  let md := monthDayAux (monthLengths leap) 1 n
  ((monthLengths leap).take (md.1 - 1)).sum + md.2

set_option maxRecDepth 4000 in
theorem ordOfOffset_leap : ∀ n : Fin 366, ordOfOffset true n.val = n.val + 1 := by
  decide

set_option maxRecDepth 4000 in
theorem ordOfOffset_nonleap : ∀ n : Fin 365, ordOfOffset false n.val = n.val + 1 := by
  decide

theorem tm_yday_dateOfOffset (year n : Nat) (h : n < days_in_year year) :
    tm_yday (dateOfOffset year n) = n + 1 := by
  have hrfl : tm_yday (dateOfOffset year n) = ordOfOffset (is_leap_year year) n := rfl
  rw [hrfl]
  rcases hb : is_leap_year year with _ | _
  · have h365 : n < 365 := by
      have : days_in_year year = 365 := by simp [days_in_year, hb]
      omega
    exact ordOfOffset_nonleap ⟨n, h365⟩
  · have h366 : n < 366 := by
      have : days_in_year year = 366 := by simp [days_in_year, hb]
      omega
    exact ordOfOffset_leap ⟨n, h366⟩

theorem dateOfOffset_inj (year n k : Nat) (hn : n < days_in_year year)
    (hk : k < days_in_year year) (h : dateOfOffset year n = dateOfOffset year k) :
    n = k := by
  have := tm_yday_dateOfOffset year n hn
  have := tm_yday_dateOfOffset year k hk
  have : n + 1 = k + 1 := by
    rw [← tm_yday_dateOfOffset year n hn, ← tm_yday_dateOfOffset year k hk, h]
  omega

theorem dateOfOffset_range_nodup (year : Nat) :
    (((List.range (days_in_year year)).map (dateOfOffset year))).Nodup := by
  refine List.Nodup.map_on ?_ (List.nodup_range _)
  intro x hx y hy hxy
  exact dateOfOffset_inj year x y (List.mem_range.mp hx) (List.mem_range.mp hy) hxy

/-! ### Helper lemmas on the generator -/

theorem mapMExcept_ok (f : Nat → Except GenError (Date × String))
    (g : Nat → Date × String) (l : List Nat) (h : ∀ n ∈ l, f n = .ok (g n)) :
    mapMExcept f l = .ok (l.map g) := by
  induction l with
  | nil => rfl
  | cons a rest ih =>
      have ha : f a = .ok (g a) := h a (List.mem_cons_self a rest)
      have hrest : mapMExcept f rest = .ok (rest.map g) :=
        ih (fun n hn => h n (List.mem_cons_of_mem a hn))
      simp [mapMExcept, ha, hrest]

theorem assignDay_ok (year : Nat) (pool : List String) (hp : pool ≠ []) (n : Nat) :
    assignDay year pool n =
      .ok (dateOfOffset year n,
        (pool[(tm_yday (dateOfOffset year n) - 1) % pool.length]?).getD "") := by
  have hlen : 0 < pool.length := List.length_pos.mpr hp
  have hmod : (tm_yday (dateOfOffset year n) - 1) % pool.length < pool.length :=
    Nat.mod_lt _ hlen
  have hne : (pool.length == 0) = false := by
    simp [Nat.pos_iff_ne_zero.mp hlen]
  have hget : pool[(tm_yday (dateOfOffset year n) - 1) % pool.length]? =
      some (pool[(tm_yday (dateOfOffset year n) - 1) % pool.length]) :=
    List.getElem?_eq_getElem hmod
  simp [assignDay, pyMod, hne, hget]

/-! ### Helper lemmas on dict operations -/

theorem dictInsert_not_mem (m : List (Date × String)) (k : Date) (v : String)
    (h : ∀ p ∈ m, p.1 ≠ k) : dictInsert m k v = m ++ [(k, v)] := by
  have hany : (m.any (fun p => decide (p.1 = k))) = false := by
    refine List.any_eq_false.mpr ?_
    intro p hp
    simpa using h p hp
  simp [dictInsert, hany]

theorem foldl_dictInsert (entries : List (Date × String)) :
    ∀ acc : List (Date × String),
      (∀ p ∈ entries, ∀ q ∈ acc, q.1 ≠ p.1) →
      (entries.map Prod.fst).Nodup →
      entries.foldl (fun m p => dictInsert m p.1 p.2) acc = acc ++ entries := by
  induction entries with
  | nil => intro acc _ _; simp
  | cons p rest ih =>
      intro acc hdisj hnodup
      have hins : dictInsert acc p.1 p.2 = acc ++ [p] := by
        have := dictInsert_not_mem acc p.1 p.2
          (fun q hq => hdisj p (List.mem_cons_self p rest) q hq)
        simpa using this
      have hkey : p.1 ∉ rest.map Prod.fst := by
        have := hnodup
        simp only [List.map_cons, List.nodup_cons] at this
        exact this.1
      have hdisj2 : ∀ x ∈ rest, ∀ q ∈ acc ++ [p], q.1 ≠ x.1 := by
        intro x hx q hq
        rcases List.mem_append.mp hq with hq1 | hq2
        · exact hdisj x (List.mem_cons_of_mem p hx) q hq1
        · have hqp : q = p := by simpa using hq2
          subst hqp
          intro hc
          exact hkey (hc ▸ List.mem_map_of_mem Prod.fst hx)
      have hnodup2 : (rest.map Prod.fst).Nodup := by
        have := hnodup
        simp only [List.map_cons, List.nodup_cons] at this
        exact this.2
      calc (p :: rest).foldl (fun m q => dictInsert m q.1 q.2) acc
          = rest.foldl (fun m q => dictInsert m q.1 q.2) (acc ++ [p]) := by
            simp [List.foldl_cons, hins]
        _ = (acc ++ [p]) ++ rest := ih (acc ++ [p]) hdisj2 hnodup2
        _ = acc ++ (p :: rest) := by simp

theorem dict_get_of_mem (m : List (Date × String)) (k : Date) (v : String)
    (hnodup : (m.map Prod.fst).Nodup) (hmem : (k, v) ∈ m) :
    dict_get m k = some v := by
  induction m with
  | nil => cases hmem
  | cons p rest ih =>
      rcases List.mem_cons.mp hmem with hp | hrest
      · subst hp
        simp [dict_get, List.find?]
      · have hkey : p.1 ∉ rest.map Prod.fst := by
          have := hnodup
          simp only [List.map_cons, List.nodup_cons] at this
          exact this.1
        have hne : p.1 ≠ k := by
          intro hc
          exact hkey (hc ▸ List.mem_map_of_mem Prod.fst hrest)
        have hnodup2 : (rest.map Prod.fst).Nodup := by
          have := hnodup
          simp only [List.map_cons, List.nodup_cons] at this
          exact this.2
        have := ih hnodup2 hrest
        simpa [dict_get, List.find?, hne] using this

theorem genMapping_ok (year : Nat) (pool : List String) (hp : pool ≠ []) :
    genMapping year pool =
      .ok ((List.range (days_in_year year)).map (fun n =>
        (dateOfOffset year n,
          (pool[(tm_yday (dateOfOffset year n) - 1) % pool.length]?).getD ""))) := by
  have hmap := mapMExcept_ok (assignDay year pool)
    (fun n => (dateOfOffset year n,
      (pool[(tm_yday (dateOfOffset year n) - 1) % pool.length]?).getD ""))
    (List.range (days_in_year year))
    (fun n _ => assignDay_ok year pool hp n)
  have hkeys : (((List.range (days_in_year year)).map (fun n =>
      (dateOfOffset year n,
        (pool[(tm_yday (dateOfOffset year n) - 1) % pool.length]?).getD ""))).map
        Prod.fst).Nodup := by
    rw [List.map_map]
    exact dateOfOffset_range_nodup year
  have hfold := foldl_dictInsert _ [] (by intro p _ q hq; cases hq) hkeys
  simp [genMapping, hmap, hfold]

theorem genMapping_empty (year : Nat) :
    genMapping year [] = .error .zeroDivisionError := by
  have hassign : assignDay year ([] : List String) 0 = .error .zeroDivisionError := by
    simp [assignDay, pyMod]
  have hd : days_in_year year = 366 ∨ days_in_year year = 365 := by
    unfold days_in_year
    rcases is_leap_year year with _ | _ <;> simp
  have hk : ∃ k, days_in_year year = k + 1 := by
    rcases hd with h | h
    · exact ⟨365, h⟩
    · exact ⟨364, h⟩
  obtain ⟨k, hk⟩ := hk
  rw [genMapping, hk, List.range_succ_eq_map]
  simp [mapMExcept, hassign]

/-! ### Helper lemmas on the message store -/

theorem lookupSender_eq (table : List Message) (m : Message)
    (hnodup : (table.map Message.id).Nodup) (hmem : m ∈ table) :
    lookupSender table m.id = some m.sender := by
  induction table with
  | nil => cases hmem
  | cons x rest ih =>
      rcases List.mem_cons.mp hmem with hx | hrest
      · subst hx
        simp [lookupSender, List.find?]
      · have hkey : x.id ∉ rest.map Message.id := by
          simp only [List.map_cons, List.nodup_cons] at hnodup
          exact hnodup.1
        have hne : x.id ≠ m.id :=
          fun hc => hkey (hc ▸ List.mem_map_of_mem Message.id hrest)
        have hnodup2 : (rest.map Message.id).Nodup := by
          simp only [List.map_cons, List.nodup_cons] at hnodup
          exact hnodup.2
        have := ih hnodup2 hrest
        simpa [lookupSender, List.find?, hne] using this

instance : IsTotal Message (fun a b => a.id ≤ b.id) :=
  ⟨fun a b => Nat.le_total a.id b.id⟩

instance : IsTrans Message (fun a b => a.id ≤ b.id) :=
  ⟨fun _ _ _ h h2 => Nat.le_trans h h2⟩

/-! ### The claims -/

/-- Claim C1: if a persisted date-question mapping already exists, the
assigner loads and returns that mapping unchanged without regenerating it,
so two successive calls over the same persisted state return identical
mappings, even if the pool or year supplied on the second call differ. -/
theorem ensure_mapping_idempotent (pool pool2 : List String) (year year2 : Nat)
    (m : List (Date × String)) :
    load_question_mapping pool year (.present (.parseable m)) =
      (.ok m, .present (.parseable m)) ∧
    load_question_mapping pool2 year2
        ((load_question_mapping pool year (.present (.parseable m))).2) =
      (.ok m, .present (.parseable m)) :=
  ⟨rfl, rfl⟩

/-- Claim C2: for every non-empty pool and year, the generated mapping has
exactly `days_in_year year` entries — one per calendar date of the year,
with the year length given by the Gregorian leap-year rule — and the date
with 1-based day-of-year index n is assigned `pool[(n-1) % pool.length]`
from the (shuffled) pool, cycling when the pool is shorter than the year. -/
theorem genMapping_correct (year : Nat) (pool : List String) (hpool : pool ≠ []) :
    ∃ m, genMapping year pool = .ok m ∧
      m.length = days_in_year year ∧
      m.map Prod.fst = (List.range (days_in_year year)).map (dateOfOffset year) ∧
      (m.map Prod.fst).Nodup ∧
      days_in_year year =
        (if year % 4 = 0 ∧ (year % 100 ≠ 0 ∨ year % 400 = 0) then 366 else 365) ∧
      (∀ n, 1 ≤ n → n ≤ days_in_year year →
        tm_yday (dateOfOffset year (n - 1)) = n ∧
        dict_get m (dateOfOffset year (n - 1)) = pool[(n - 1) % pool.length]?) := by
  have hkeys : ((((List.range (days_in_year year)).map (fun k =>
      (dateOfOffset year k,
        (pool[(tm_yday (dateOfOffset year k) - 1) % pool.length]?).getD "")))).map
        Prod.fst).Nodup := by
    rw [List.map_map]
    exact dateOfOffset_range_nodup year
  refine ⟨_, genMapping_ok year pool hpool, ?_, ?_, hkeys, ?_, ?_⟩
  · simp
  · rw [List.map_map]
    rfl
  · have hiff : (is_leap_year year = true) ↔
        (year % 4 = 0 ∧ (year % 100 ≠ 0 ∨ year % 400 = 0)) := by
      simp [is_leap_year]
    rw [days_in_year]
    exact if_congr hiff rfl rfl
  · intro n h1 hN
    have hk : n - 1 < days_in_year year := by omega
    have hy : tm_yday (dateOfOffset year (n - 1)) = n := by
      have := tm_yday_dateOfOffset year (n - 1) hk
      omega
    refine ⟨hy, ?_⟩
    have hmem : (dateOfOffset year (n - 1),
        (pool[(tm_yday (dateOfOffset year (n - 1)) - 1) % pool.length]?).getD "") ∈
        (List.range (days_in_year year)).map (fun k =>
          (dateOfOffset year k,
            (pool[(tm_yday (dateOfOffset year k) - 1) % pool.length]?).getD "")) :=
      List.mem_map_of_mem _ (List.mem_range.mpr hk)
    have hget := dict_get_of_mem _ _ _ hkeys hmem
    rw [hget]
    have hlen : 0 < pool.length := List.length_pos.mpr hpool
    have hmod : (n - 1) % pool.length < pool.length := Nat.mod_lt _ hlen
    rw [hy, List.getElem?_eq_getElem hmod]
    simp

/-- Claim C2 witness: the theorem instantiated at year 2024 and a concrete
three-question pool. -/
theorem genMapping_correct_witness :
    ∃ m, genMapping 2024 ["q0", "q1", "q2"] = .ok m ∧
      m.length = days_in_year 2024 ∧
      m.map Prod.fst = (List.range (days_in_year 2024)).map (dateOfOffset 2024) ∧
      (m.map Prod.fst).Nodup ∧
      days_in_year 2024 =
        (if 2024 % 4 = 0 ∧ (2024 % 100 ≠ 0 ∨ 2024 % 400 = 0) then 366 else 365) ∧
      (∀ n, 1 ≤ n → n ≤ days_in_year 2024 →
        tm_yday (dateOfOffset 2024 (n - 1)) = n ∧
        dict_get m (dateOfOffset 2024 (n - 1)) =
          (["q0", "q1", "q2"] : List String)[(n - 1) % (["q0", "q1", "q2"] : List String).length]?) :=
  genMapping_correct 2024 ["q0", "q1", "q2"] (by decide)

/-- Claim C3: for a stored message with id K and owner S, an update by a
different requester is rejected and the store is left unchanged, while an
update by S succeeds and replaces only the body of that row, leaving its id,
sender and timestamp, and every other row, unchanged. -/
theorem edit_message_ownership (s : MessageStore) (m : Message)
    (requester b : String)
    (hnodup : (s.table.map Message.id).Nodup) (hmem : m ∈ s.table) :
    (requester ≠ m.sender →
      edit_message m.id requester b s =
        (.rejected "You can only edit your own messages.", s)) ∧
    edit_message m.id m.sender b s =
      (.success "Message updated successfully!",
       { s with table := s.table.map (fun x =>
           if x.id = m.id then { x with message := b } else x) }) := by
  have hlook : lookupSender s.table m.id = some m.sender :=
    lookupSender_eq s.table m hnodup hmem
  constructor
  · intro hne
    simp [edit_message, hlook, hne.symm]
  · simp [edit_message, hlook]

/-- Claim C3 witness: a one-row store owned by User 1; User 2 is rejected,
User 1 replaces the body in place. -/
theorem edit_message_ownership_witness :
    ("User 2" ≠ "User 1" →
      edit_message 1 "User 2" "x"
          (MessageStore.mk
            [Message.mk 1 "User 1" "hello" (Timestamp.mk (Date.mk 2025 2 1) 0)] 2) =
        (.rejected "You can only edit your own messages.",
          MessageStore.mk
            [Message.mk 1 "User 1" "hello" (Timestamp.mk (Date.mk 2025 2 1) 0)] 2)) ∧
    edit_message 1 "User 1" "x"
        (MessageStore.mk
          [Message.mk 1 "User 1" "hello" (Timestamp.mk (Date.mk 2025 2 1) 0)] 2) =
      (.success "Message updated successfully!",
        MessageStore.mk
          ([Message.mk 1 "User 1" "hello" (Timestamp.mk (Date.mk 2025 2 1) 0)].map
            (fun x => if x.id = 1 then
              { x with message := "x" } else x)) 2) :=
  edit_message_ownership
    (MessageStore.mk
      [Message.mk 1 "User 1" "hello" (Timestamp.mk (Date.mk 2025 2 1) 0)] 2)
    (Message.mk 1 "User 1" "hello" (Timestamp.mk (Date.mk 2025 2 1) 0))
    "User 2" "x" (by decide) (by decide)

/-- Claim C4 counterexample: the code does not distinguish the two failure
modes. Deleting id 1 a second time (the id no longer exists) yields the very
same ownership-rejection outcome that a genuine non-owner delete yields,
not a distinct not-found outcome. -/
theorem delete_absent_id_counterexample :
    delete_message 1 "User 1"
        (MessageStore.mk
          [Message.mk 1 "User 1" "hello" (Timestamp.mk (Date.mk 2025 2 1) 0)] 2) =
      (.success "Message deleted successfully!", MessageStore.mk [] 2) ∧
    delete_message 1 "User 1" (MessageStore.mk [] 2) =
      (.rejected "You can only delete your own messages.", MessageStore.mk [] 2) ∧
    (delete_message 1 "User 1" (MessageStore.mk [] 2)).1 =
      (delete_message 1 "User 2"
        (MessageStore.mk
          [Message.mk 1 "User 1" "hello" (Timestamp.mk (Date.mk 2025 2 1) 0)] 2)).1 := by
  refine ⟨?_, ?_, ?_⟩ <;> rfl

/-- Claim C4 (amended): update and delete do not distinguish the failure
modes. Both when no row with the given id exists and when the row exists but
the requester differs from its sender, they return the single
ownership-rejection outcome, and in both failure cases no state changes. -/
theorem update_delete_failure_modes (s : MessageStore) (K : Nat)
    (requester b : String)
    (hfail : lookupSender s.table K = none ∨
      ∃ S, lookupSender s.table K = some S ∧ S ≠ requester) :
    delete_message K requester s =
      (.rejected "You can only delete your own messages.", s) ∧
    edit_message K requester b s =
      (.rejected "You can only edit your own messages.", s) := by
  rcases hfail with hnone | ⟨S, hS, hne⟩
  · constructor <;> simp [delete_message, edit_message, hnone]
  · constructor <;> simp [delete_message, edit_message, hS, hne]

/-- Claim C4 witness: the amended theorem at an absent id on an empty table. -/
theorem update_delete_failure_modes_witness :
    delete_message 7 "User 2" (MessageStore.mk [] 2) =
      (.rejected "You can only delete your own messages.", MessageStore.mk [] 2) ∧
    edit_message 7 "User 2" "x" (MessageStore.mk [] 2) =
      (.rejected "You can only edit your own messages.", MessageStore.mk [] 2) :=
  update_delete_failure_modes (MessageStore.mk [] 2) 7 "User 2" "x"
    (Or.inl (by decide))

/-- Claim C5 counterexample: with an empty pool the generator fails with the
modulo-by-zero exception of the indexing expression, not with the
EmptyPoolError named by the specification, though indeed no mapping file is
written. -/
theorem empty_pool_counterexample :
    load_and_assign_questions 2025 [] .absent =
      (.error .zeroDivisionError, .absent) ∧
    GenError.zeroDivisionError ≠ GenError.emptyPoolError := by
  constructor
  · simp [load_and_assign_questions, genMapping_empty]
  · decide

/-- Claim C5 (amended): for an empty pool, mapping generation fails by
raising the modulo-by-zero exception of the question-indexing expression —
not a dedicated EmptyPoolError — and it fails before any mapping is produced
or any mapping file is written, leaving the file state unchanged. -/
theorem empty_pool_behavior (year : Nat) (fs : FileState) :
    load_and_assign_questions year [] fs = (.error .zeroDivisionError, fs) := by
  simp [load_and_assign_questions, genMapping_empty]

/-- Claim C6 counterexample: the store inserts an empty body without any
rejection — a row is appended, so the store performs no defensive
validation. -/
theorem send_blank_body_counterexample :
    send_message "User 1" "" none (Timestamp.mk (Date.mk 2025 3 1) 0)
        (MessageStore.mk [] 1) =
      MessageStore.mk
        [Message.mk 1 "User 1" "" (Timestamp.mk (Date.mk 2025 3 1) 0)] 2 :=
  rfl

/-- Claim C6 (amended): the insert operation itself performs no body
validation — any body, blank included, is appended as a new row; the
blank-message rejection exists only in the caller, whose form handler never
calls insert when the stripped message is empty. -/
theorem send_message_no_store_validation (sender body : String)
    (d : Option Date) (now : Timestamp) (s : MessageStore)
    (username msg : String) (selected_date today : Date)
    (hblank : pyStrip msg = "") :
    (send_message sender body d now s).table =
      s.table ++ [⟨s.nextId, sender, body,
        match d with
        | some dd => ⟨dd, 0⟩
        | none => now⟩] ∧
    handle_send username msg selected_date today now s = s := by
  constructor
  · cases d <;> rfl
  · simp [handle_send, hblank]

/-- Claim C6 witness: a whitespace-only body is appended by the store, while
the form handler refuses to send it. -/
theorem send_message_no_store_validation_witness :
    (send_message "User 1" "  " none (Timestamp.mk (Date.mk 2025 3 1) 5)
        (MessageStore.mk [] 1)).table =
      [] ++ [Message.mk 1 "User 1" "  " (Timestamp.mk (Date.mk 2025 3 1) 5)] ∧
    handle_send "User 1" "  " (Date.mk 2025 3 1) (Date.mk 2025 3 1)
        (Timestamp.mk (Date.mk 2025 3 1) 5) (MessageStore.mk [] 1) =
      MessageStore.mk [] 1 :=
  send_message_no_store_validation "User 1" "  " none
    (Timestamp.mk (Date.mk 2025 3 1) 5) (MessageStore.mk [] 1)
    "User 1" "  " (Date.mk 2025 3 1) (Date.mk 2025 3 1) (by decide)

/-- Claim C7: inserting with an explicit calendar date stores that date at
midnight (second 0), independent of the current wall-clock instant, so the
date component of the stored timestamp is exactly the explicit date; with no
explicit date the stored timestamp is the insertion instant. -/
theorem send_message_explicit_date (sender body : String) (d : Date)
    (now now2 : Timestamp) (s : MessageStore) :
    send_message sender body (some d) now s =
      ⟨s.table ++ [⟨s.nextId, sender, body, ⟨d, 0⟩⟩], s.nextId + 1⟩ ∧
    send_message sender body (some d) now s =
      send_message sender body (some d) now2 s ∧
    (⟨d, 0⟩ : Timestamp).date = d ∧
    send_message sender body none now s =
      ⟨s.table ++ [⟨s.nextId, sender, body, now⟩], s.nextId + 1⟩ :=
  ⟨rfl, rfl, rfl, rfl⟩

/-- Claim C8: listing for a date returns exactly the stored messages whose
timestamp has that date, in ascending id order; a fresh insert on a day with
no messages makes the listing for that day exactly the one new message with
the freshly assigned id, which no existing row carries. -/
theorem get_messages_spec (d : Date) (s : MessageStore) (sender body : String)
    (now : Timestamp)
    (hwf : ∀ m ∈ s.table, m.id < s.nextId)
    (hfresh : ∀ m ∈ s.table, m.timestamp.date ≠ now.date) :
    (∀ m : Message, m ∈ get_messages (some d) s ↔
      m ∈ s.table ∧ m.timestamp.date = d) ∧
    List.Sorted (fun a b => a.id ≤ b.id) (get_messages (some d) s) ∧
    get_messages (some now.date) (send_message sender body none now s) =
      [⟨s.nextId, sender, body, now⟩] ∧
    (∀ m ∈ s.table, m.id ≠ s.nextId) := by
  refine ⟨?_, ?_, ?_, ?_⟩
  · intro m
    simp [get_messages, List.mem_filter]
  · exact List.sorted_insertionSort _ _
  · have h1 : s.table.filter
        (fun m : Message => decide (m.timestamp.date = now.date)) = [] := by
      refine List.filter_eq_nil_iff.mpr ?_
      intro a ha
      simpa using hfresh a ha
    simp [get_messages, send_message, List.filter_append, h1,
      List.insertionSort, List.orderedInsert]
  · intro m hm
    exact Nat.ne_of_lt (hwf m hm)

/-- Claim C8 witness: the theorem at a one-row store and a fresh insert on a
different day. -/
theorem get_messages_spec_witness :
    (∀ m : Message, m ∈ get_messages (some (Date.mk 2025 2 1))
        (MessageStore.mk
          [Message.mk 1 "User 1" "hi" (Timestamp.mk (Date.mk 2025 2 1) 10)] 2) ↔
      m ∈ (MessageStore.mk
        [Message.mk 1 "User 1" "hi" (Timestamp.mk (Date.mk 2025 2 1) 10)] 2).table ∧
      m.timestamp.date = Date.mk 2025 2 1) ∧
    List.Sorted (fun a b => a.id ≤ b.id)
      (get_messages (some (Date.mk 2025 2 1))
        (MessageStore.mk
          [Message.mk 1 "User 1" "hi" (Timestamp.mk (Date.mk 2025 2 1) 10)] 2)) ∧
    get_messages (some (Timestamp.mk (Date.mk 2025 2 2) 99).date)
      (send_message "User 2" "yo" none (Timestamp.mk (Date.mk 2025 2 2) 99)
        (MessageStore.mk
          [Message.mk 1 "User 1" "hi" (Timestamp.mk (Date.mk 2025 2 1) 10)] 2)) =
      [Message.mk (MessageStore.mk
          [Message.mk 1 "User 1" "hi" (Timestamp.mk (Date.mk 2025 2 1) 10)] 2).nextId
        "User 2" "yo" (Timestamp.mk (Date.mk 2025 2 2) 99)] ∧
    (∀ m ∈ (MessageStore.mk
        [Message.mk 1 "User 1" "hi" (Timestamp.mk (Date.mk 2025 2 1) 10)] 2).table,
      m.id ≠ (MessageStore.mk
        [Message.mk 1 "User 1" "hi" (Timestamp.mk (Date.mk 2025 2 1) 10)] 2).nextId) :=
  get_messages_spec (Date.mk 2025 2 1)
    (MessageStore.mk
      [Message.mk 1 "User 1" "hi" (Timestamp.mk (Date.mk 2025 2 1) 10)] 2)
    "User 2" "yo" (Timestamp.mk (Date.mk 2025 2 2) 99) (by decide) (by decide)

/-- Claim C9: for a date that is not a key of the mapping, the lookup
returns the explicit sentinel string rather than failing. -/
theorem question_for_outside_range (m : List (Date × String)) (d : Date)
    (h : ∀ p ∈ m, p.1 ≠ d) :
    dict_get m d = none ∧
    question_for m d = "No question available for this date." := by
  have hfind : m.find? (fun p => decide (p.1 = d)) = none := by
    refine List.find?_eq_none.mpr ?_
    intro p hp
    simpa using h p hp
  constructor
  · simp [dict_get, hfind]
  · simp [question_for, dict_get, hfind]

/-- Claim C9 witness: a date before the covered range yields the sentinel. -/
theorem question_for_outside_range_witness :
    dict_get [(Date.mk 2025 1 1, "q")] (Date.mk 2024 5 5) = none ∧
    question_for [(Date.mk 2025 1 1, "q")] (Date.mk 2024 5 5) =
      "No question available for this date." :=
  question_for_outside_range [(Date.mk 2025 1 1, "q")] (Date.mk 2024 5 5)
    (by decide)

/-- Claim C10: if the mapping file exists but cannot be parsed, loading
returns the empty mapping without raising, independent of the supplied pool
and year, and no file-present state is ever overwritten, regenerated or
deleted — the file state is preserved whenever the file exists. -/
theorem load_mapping_corrupt_file (pool pool2 : List String) (year year2 : Nat) :
    load_question_mapping pool year (.present .corrupt) =
      (.ok [], .present .corrupt) ∧
    load_question_mapping pool year (.present .corrupt) =
      load_question_mapping pool2 year2 (.present .corrupt) ∧
    (∀ c : FileContent,
      (load_question_mapping pool year (.present c)).2 = .present c) := by
  refine ⟨rfl, rfl, ?_⟩
  intro c
  cases c <;> rfl

end ChatApp
